import Mathlib

/-!
Verification development for the papagei repository's session & history
control plane, as exercised by its Node/TypeScript sources:

* `scripts/prune-history.mjs` — retention pruning of the durable history
  document (claims about boundary semantics, fail-open timestamp parsing,
  atomic replace, idempotence, frame conditions, retention bounds);
* `scripts/dev-backend.mjs` — the launcher that prunes before spawning the
  backend server;
* the browser client (`app/page.tsx` variant) — `checkHealth` / `start`
  normalisation and gating;
* the SessionController state machine, which lives in the Python backend
  (not part of the sources here) and is modelled from the specification.

JavaScript machine primitives (Date.parse, Number.parseInt, String(...))
are embedded explicitly below; `Date.parse` is kept as a parameter
`dateParse : String → Option Int` (`none` models `NaN`).
-/

namespace Papagei

/-! ### JS primitives: String(number) and Number.parseInt(·, 10)

`Number.parseInt(s, 10)` trims leading whitespace, accepts an optional
sign, then reads the maximal decimal-digit run; it yields `NaN` (here
`none`) when no digit was read.  `String(n)` for an integral JS number is
its decimal representation. -/

def digitChar (d : Nat) : Char := Char.ofNat (48 + d)

def isDigitCh (c : Char) : Bool := 48 ≤ c.toNat && c.toNat ≤ 57

def digitVal (c : Char) : Nat := c.toNat - 48

def isJsSpace (c : Char) : Bool :=
  c.toNat = 32 || c.toNat = 9 || c.toNat = 10 || c.toNat = 13 || c.toNat = 11 || c.toNat = 12

/-- Decimal digits of `n`, most significant first.  The first argument is
structural fuel (`n + 1` always suffices) so that the definition reduces
inside the kernel. -/
def natToCharsAux : Nat → Nat → List Char
  | 0, _ => []
  | fuel + 1, n =>
    if n < 10 then [digitChar n]
    else natToCharsAux fuel (n / 10) ++ [digitChar (n % 10)]

def natToChars (n : Nat) : List Char := natToCharsAux (n + 1) n

/-- `String(v)` for an integral JS number `v`. -/
def intToStr (n : Int) : String :=
  if n < 0 then String.mk ('-' :: natToChars n.natAbs) else String.mk (natToChars n.natAbs)

/-- Value of the maximal leading digit run, `none` when there is none. -/
def takeDigitsVal (cs : List Char) : Option Nat :=
  let ds := cs.takeWhile isDigitCh
  if ds.isEmpty then none else some (ds.foldl (fun a c => a * 10 + digitVal c) 0)

def parseJsIntChars (cs0 : List Char) : Option Int :=
  match cs0.dropWhile isJsSpace with
  | [] => none
  | c :: rest =>
    if c = '-' then (takeDigitsVal rest).map (fun v => -(v : Int))
    else if c = '+' then (takeDigitsVal rest).map (fun v => (v : Int))
    else (takeDigitsVal (c :: rest)).map (fun v => (v : Int))

/-- `Number.parseInt(s, 10)`, with `none` for `NaN`. -/
def parseJsInt (s : String) : Option Int := parseJsIntChars s.data

/-! ### Settings and retention resolution (`prune-history.mjs` lines 5-31) -/

/-- A JSON scalar as it can appear in `settings.historyRetentionDays`. -/
inductive JsVal where
  | jnum (n : Int)
  | jstr (s : String)
  | jbool (b : Bool)
  | jnull
deriving DecidableEq

def DEFAULT_RETENTION_DAYS : Int := 60

def MAX_RETENTION_DAYS : Int := 3650

/-- `String(settings?.historyRetentionDays ?? DEFAULT_RETENTION_DAYS)`:
`none` models a missing field (or missing/invalid settings file, whose
`readJson` fallback `{}` has no such field); `??` also replaces `null`. -/
def settingsString : Option JsVal → String
  | none => intToStr DEFAULT_RETENTION_DAYS
  | some .jnull => intToStr DEFAULT_RETENTION_DAYS
  | some (.jnum n) => intToStr n
  | some (.jstr s) => s
  | some (.jbool b) => if b then "true" else "false"

/-- `resolveRetentionDays()` from `prune-history.mjs`: parse the configured
value and fall back to the default outside `[1, MAX_RETENTION_DAYS]`
(`Number.isFinite(NaN)` is false, so an unparsed value also falls back). -/
def resolveRetentionDays (v : Option JsVal) : Int :=
  match parseJsInt (settingsString v) with
  | none => DEFAULT_RETENTION_DAYS
  | some value =>
    if value < 1 ∨ value > MAX_RETENTION_DAYS then DEFAULT_RETENTION_DAYS else value

/-! ### History items and the filesystem model (`prune-history.mjs`) -/

/-- One element of the persisted history array.  `createdAt` holds
`String(item?.createdAt)` (so `"undefined"` for a record without the
field); `payload` stands for the rest of the record (id, text, seconds),
inert under pruning. -/
structure Item where
  createdAt : String
  payload : Nat
deriving DecidableEq

/-- `toTimestamp(value)` from `prune-history.mjs`: `Date.parse(String(value))`
guarded by `Number.isFinite`; `dateParse` models `Date.parse` with `none`
for `NaN`. -/
def toTimestamp (dateParse : String → Option Int) (value : String) : Option Int :=
  dateParse value

/-- The filter predicate of `prune()` (lines 53-63): keep an item when its
timestamp does not parse, or when it is not strictly before the cutoff. -/
def keepItem (dateParse : String → Option Int) (cutoffMs : Int) (item : Item) : Bool :=
  match toTimestamp dateParse item.createdAt with
  | none => true
  | some createdAtMs => if createdAtMs < cutoffMs then false else true

/-- The documents/paths `prune-history.mjs` touches. -/
inductive PathId where
  | historyDir
  | historyFile
  | tempFile
deriving DecidableEq

/-- Content of one path: absent, present but not valid JSON, a JSON array
of history items, or JSON of some other shape (`tag` distinguishes
values). -/
inductive Doc where
  | absent
  | invalid
  | arr (items : List Item)
  | nonArray (tag : Nat)
deriving DecidableEq

def Fs : Type := PathId → Doc

def fsUpdate (fs : Fs) (p : PathId) (d : Doc) : Fs :=
  fun q => if q = p then d else fs q

/-- Filesystem effects emitted by the script, in program order. -/
inductive FsOp where
  | mkdir (p : PathId)
  | write (p : PathId) (d : Doc)
  | rename (src : PathId) (dst : PathId)
deriving DecidableEq

/-- Effect of one completed operation.  `rename` is the POSIX atomic
replace; `mkdir` creates a directory and touches no document. -/
def applyOp (fs : Fs) : FsOp → Fs
  | .mkdir _ => fs
  | .write p d => fsUpdate fs p d
  | .rename src dst => fsUpdate (fsUpdate fs dst (fs src)) src .absent

def applyOps (fs : Fs) (ops : List FsOp) : Fs := ops.foldl applyOp fs

/-- Effect of an operation interrupted by a crash: a torn `write` leaves
the target unreadable; `mkdir` and `rename` are atomic, so an interrupted
one either already happened (covered by the longer prefix) or did not
happen at all. -/
def applyOpTorn (fs : Fs) : FsOp → Fs
  | .write p _ => fsUpdate fs p .invalid
  | .mkdir _ => fs
  | .rename _ _ => fs

/-- Result of `readJson(historyFile, [])`: parse failures (and an absent
file) take the `[]` fallback, so only a successfully parsed non-array
escapes the `Array.isArray` check. -/
inductive ReadJsonResult where
  | jarr (items : List Item)
  | jother (tag : Nat)

def readHistoryJson : Doc → ReadJsonResult
  | .absent => .jarr []
  | .invalid => .jarr []
  | .arr items => .jarr items
  | .nonArray tag => .jother tag

/-- `prune()` from `prune-history.mjs` (lines 38-84), returning the
process exit contribution and the emitted filesystem-effect trace.
`nowMs` is `Date.now()`; `settings` is the decoded
`settings.historyRetentionDays`. -/
def prune (dateParse : String → Option Int) (fs0 : Fs) (settings : Option JsVal)
    (dryRun : Bool) (nowMs : Int) : Int × List FsOp :=
  match fs0 PathId.historyFile with
  | .absent => (0, [])
  | d =>
    match readHistoryJson d with
    | .jother _ => (1, [])
    | .jarr history =>
      let days := resolveRetentionDays settings
      let cutoffMs := nowMs - days * 24 * 60 * 60 * 1000
      let kept := history.filter (keepItem dateParse cutoffMs)
      let removed := history.length - kept.length
      if removed = 0 then (0, [])
      else if dryRun then (0, [])
      else (0, [FsOp.mkdir PathId.historyDir,
                FsOp.write PathId.tempFile (Doc.arr kept),
                FsOp.rename PathId.tempFile PathId.historyFile])

/-- The cutoff used by `prune` for a given settings value and clock. -/
def pruneCutoff (settings : Option JsVal) (nowMs : Int) : Int :=
  nowMs - resolveRetentionDays settings * 24 * 60 * 60 * 1000

/-! ### Browser client: `checkHealth` and `start` (`app/page.tsx` variant) -/

/-- The client's `BackendState` union. -/
inductive BackendState where
  | offline
  | loading
  | ready
  | error
deriving DecidableEq

/-- Fields of the decoded `/health` JSON body that `checkHealth` reads
(the phase/uptime fields only feed display state and are omitted). -/
structure HealthData where
  status : Option String
  ready : Bool
  message : Option String
  errorField : Option String
deriving DecidableEq

inductive BodyOutcome where
  | invalidJson
  | json (d : HealthData)
deriving DecidableEq

/-- Outcome of `fetch(BACKEND + "/health")`: the network threw, or a
response arrived with `r.ok` and a body. -/
inductive FetchOutcome where
  | netError
  | response (ok : Bool) (body : BodyOutcome)
deriving DecidableEq

/-- The object `checkHealth` returns to its caller. -/
structure HealthResult where
  ready : Bool
  status : BackendState
  message : String
deriving DecidableEq

def offlineResult : HealthResult :=
  { ready := false, status := .offline, message := "Backend not reachable" }

/-- `checkHealth()` from the client (lines 107-146).  Every failure path —
fetch throwing, a non-OK response, or `r.json()` throwing on a bad body —
is caught and normalised to the offline result; a JSON body is normalised
through `data.status ?? (data.ready ? "ready" : "loading")`. -/
def checkHealth : FetchOutcome → HealthResult
  | .netError => offlineResult
  | .response false _ => offlineResult
  | .response true .invalidJson => offlineResult
  | .response true (.json d) =>
    let status := d.status.getD (if d.ready then "ready" else "loading")
    let normalized : BackendState :=
      if status = "error" then .error else if status = "ready" then .ready else .loading
    let message := d.message.getD (d.errorField.getD "")
    { ready := d.ready, status := normalized, message := message }

/-- Engine load state per the specification's `LoadStatus`: loading, the
terminal ready state, or a terminal load failure. -/
inductive EngineLoad where
  | loading
  | ready
  | failed (msg : String)
deriving DecidableEq

/-- Modelled from the spec: the backend ControlAPI's `/health` body
producer is not among the sources here (it lives in the Python package
`papagei_backend`); SPEC §4.4 composes it from the monitor's `LoadStatus`
as `loading` while `ready` is false, `ready` once true, `error` on a
reported load failure. -/
def healthBody : EngineLoad → HealthData
  | .loading => { status := some "loading", ready := false, message := none, errorField := none }
  | .ready => { status := some "ready", ready := true, message := none, errorField := none }
  | .failed m => { status := some "error", ready := false, message := none, errorField := some m }

/-- The client's `Status` union. -/
inductive ClientStatus where
  | idle
  | recording
  | transcribing
  | error
deriving DecidableEq

/-- Outcome of `fetch(BACKEND + "/start", POST)`. -/
inductive PostOutcome where
  | netError
  | resp (ok : Bool) (bodyText : String)
deriving DecidableEq

/-- Observable result of one `start()` call: whether the POST to `/start`
was issued, and the client status / error message it settled on. -/
structure StartResult where
  posted : Bool
  status : ClientStatus
  errorMsg : Option String
deriving DecidableEq

/-- `start()` from the client (lines 307-330): re-poll health first; when
`status.ready` is false report an error (message chosen by the derived
status) and return without touching `/start`; otherwise POST `/start` and
settle on `recording`, or on `error` if the POST failed. -/
def start (healthOutcome : FetchOutcome) (postOutcome : PostOutcome) : StartResult :=
  let st := checkHealth healthOutcome
  if st.ready = false then
    { posted := false, status := .error,
      errorMsg := some (if st.status = BackendState.loading
        then (if st.message = "" then "Backend is loading the model. Please wait." else st.message)
        else "Backend is offline. Start it with: npm run dev:backend") }
  else
    match postOutcome with
    | .netError => { posted := true, status := .error, errorMsg := some "fetch failed" }
    | .resp true _ => { posted := true, status := .recording, errorMsg := none }
    | .resp false bodyText =>
      { posted := true, status := .error,
        errorMsg := some (if bodyText = "" then "start failed" else bodyText) }

/-! ### Backend launcher (`dev-backend.mjs`) -/

/-- Events of one launcher run, in program order.  `spawnSync` runs the
prune script to completion synchronously, so its exit status is observed
before any later statement executes. -/
inductive LaunchEvent where
  | pruneCompleted (exit : Int)
  | warnPruneFailed
  | logStart
  | spawnBackend
deriving DecidableEq

/-- Top level of `dev-backend.mjs` (lines 23-34): `spawnSync` the prune
script, warn if it failed, then `spawn` the backend server. -/
def devBackend (pruneExit : Int) : List LaunchEvent :=
  LaunchEvent.pruneCompleted pruneExit ::
    ((if pruneExit ≠ 0 then [LaunchEvent.warnPruneFailed] else []) ++
      [LaunchEvent.logStart, LaunchEvent.spawnBackend])

/-! ### SessionController state machine

Modelled from the spec: the SessionController lives in the Python backend
(`papagei_backend.server`), which is not among the sources here.  SPEC
§4.1/§5 make every transition an atomic check-and-set critical section
over the single process-wide `SessionState`; concurrent callers are an
arbitrary interleaving of these atomic events.  `capturing` counts the
sessions currently in `Recording` or `Transcribing` (incremented by a
successful `start()`, decremented when transcription finishes or fails). -/

inductive SessionState where
  | Idle
  | Recording
  | Transcribing
  | Error
deriving DecidableEq

structure SCConfig where
  state : SessionState
  capturing : Nat
deriving DecidableEq

/-- One atomic controller event, tagged with the caller that issued it. -/
inductive SCEvent where
  | startOk (caller : Nat)
  | startRejected (caller : Nat)
  | startNotReady (caller : Nat)
  | stopOk (caller : Nat)
  | stopRejected (caller : Nat)
  | stopBusy (caller : Nat)
  | finishOk (caller : Nat)
  | finishFailed (caller : Nat)

/-- Modelled from the spec: the §4.1 transition table, each row an atomic
check-and-set.  A successful `start` requires `Idle` or `Error` (and the
model ready — rejections for not-ready change nothing); `stop` moves
`Recording` to `Transcribing` inside the lock; transcription completion
or failure moves `Transcribing` to `Idle` or `Error`. -/
inductive SCStep : SCConfig → SCEvent → SCConfig → Prop where
  | startOk (c : Nat) (s : SCConfig) :
      (s.state = .Idle ∨ s.state = .Error) →
      SCStep s (.startOk c) ⟨.Recording, s.capturing + 1⟩
  | startRejected (c : Nat) (s : SCConfig) :
      (s.state = .Recording ∨ s.state = .Transcribing) →
      SCStep s (.startRejected c) s
  | startNotReady (c : Nat) (s : SCConfig) :
      SCStep s (.startNotReady c) s
  | stopOk (c : Nat) (s : SCConfig) :
      s.state = .Recording →
      SCStep s (.stopOk c) ⟨.Transcribing, s.capturing⟩
  | stopRejected (c : Nat) (s : SCConfig) :
      (s.state = .Idle ∨ s.state = .Error) →
      SCStep s (.stopRejected c) s
  | stopBusy (c : Nat) (s : SCConfig) :
      s.state = .Transcribing →
      SCStep s (.stopBusy c) s
  | finishOk (c : Nat) (s : SCConfig) :
      s.state = .Transcribing →
      SCStep s (.finishOk c) ⟨.Idle, s.capturing - 1⟩
  | finishFailed (c : Nat) (s : SCConfig) :
      s.state = .Transcribing →
      SCStep s (.finishFailed c) ⟨.Error, s.capturing - 1⟩

/-- Configurations reachable from the initial `Idle` configuration by any
interleaving of callers' atomic events. -/
inductive SCReach : SCConfig → Prop where
  | init : SCReach ⟨.Idle, 0⟩
  | step (s : SCConfig) (e : SCEvent) (t : SCConfig) :
      SCReach s → SCStep s e t → SCReach t

/-! ### Concrete fixtures (used by witness and counterexample theorems) -/

/-- A concrete `Date.parse` model: only the string `"old"` parses (to the
epoch); everything else is `NaN`. -/
def dpTest : String → Option Int := fun s => if s = "old" then some 0 else none

def itemOld : Item := ⟨"old", 0⟩

def itemBad : Item := ⟨"bad", 1⟩

def fsTest : Fs := fun p =>
  match p with
  | PathId.historyFile => Doc.arr [itemOld, itemBad]
  | _ => Doc.absent

def fsInvalidDoc : Fs := fun p =>
  match p with
  | PathId.historyFile => Doc.invalid
  | _ => Doc.absent

def fsNonArrayDoc : Fs := fun p =>
  match p with
  | PathId.historyFile => Doc.nonArray 0
  | _ => Doc.absent

/-- A test clock far enough past the epoch that `itemOld` is expired under
the default 60-day retention. -/
def nowTest : Int := 10 ^ 13

/-! ### Lemmas: decimal printing/parsing round-trip -/

theorem isDigitCh_digitChar (d : Nat) (h : d < 10) : isDigitCh (digitChar d) = true := by
  interval_cases d <;> decide

theorem digitVal_digitChar (d : Nat) (h : d < 10) : digitVal (digitChar d) = d := by
  interval_cases d <;> decide

theorem not_jsSpace_of_digit (c : Char) (h : isDigitCh c = true) : isJsSpace c = false := by
  simp only [isDigitCh, Bool.and_eq_true, decide_eq_true_eq] at h
  simp only [isJsSpace, Bool.or_eq_false_iff, decide_eq_false_iff_not]
  omega

theorem ne_minus_of_digit (c : Char) (h : isDigitCh c = true) : ¬(c = '-') := by
  intro hc
  subst hc
  exact absurd h (by decide)

theorem ne_plus_of_digit (c : Char) (h : isDigitCh c = true) : ¬(c = '+') := by
  intro hc
  subst hc
  exact absurd h (by decide)

theorem natToCharsAux_ne_nil (fuel n : Nat) (h : n < fuel) : natToCharsAux fuel n ≠ [] := by
  cases fuel with
  | zero => omega
  | succ fuel =>
    unfold natToCharsAux
    split
    · simp
    · simp

theorem natToCharsAux_digits (fuel : Nat) :
    ∀ n, n < fuel → ∀ c ∈ natToCharsAux fuel n, isDigitCh c = true := by
  induction fuel with
  | zero => omega
  | succ fuel ih =>
    intro n hn c hc
    unfold natToCharsAux at hc
    split at hc
    · rename_i h10
      simp only [List.mem_singleton] at hc
      subst hc
      exact isDigitCh_digitChar n h10
    · rename_i h10
      rcases List.mem_append.mp hc with hmem | hmem
      · exact ih (n / 10) (by omega) c hmem
      · simp only [List.mem_singleton] at hmem
        subst hmem
        exact isDigitCh_digitChar (n % 10) (Nat.mod_lt _ (by omega))

theorem foldl_natToCharsAux (fuel : Nat) :
    ∀ n a, n < fuel →
      (natToCharsAux fuel n).foldl (fun a c => a * 10 + digitVal c) a
        = a * 10 ^ (natToCharsAux fuel n).length + n := by
  induction fuel with
  | zero => omega
  | succ fuel ih =>
    intro n a hn
    unfold natToCharsAux
    split
    · rename_i h10
      simp [List.foldl, digitVal_digitChar n h10]
    · rename_i h10
      rw [List.foldl_append, ih (n / 10) a (by omega)]
      simp only [List.foldl, List.length_append, List.length_singleton]
      rw [digitVal_digitChar (n % 10) (Nat.mod_lt _ (by omega))]
      generalize (natToCharsAux fuel (n / 10)).length = L
      have h2 : n / 10 * 10 + n % 10 = n := by omega
      rw [pow_succ]
      calc (a * 10 ^ L + n / 10) * 10 + n % 10
          = a * (10 ^ L * 10) + (n / 10 * 10 + n % 10) := by ring
        _ = a * (10 ^ L * 10) + n := by rw [h2]

theorem natToChars_ne_nil (n : Nat) : natToChars n ≠ [] :=
  natToCharsAux_ne_nil (n + 1) n (Nat.lt_succ_self n)

theorem natToChars_digits (n : Nat) : ∀ c ∈ natToChars n, isDigitCh c = true :=
  natToCharsAux_digits (n + 1) n (Nat.lt_succ_self n)

theorem foldl_natToChars (n : Nat) :
    (natToChars n).foldl (fun a c => a * 10 + digitVal c) 0 = n := by
  unfold natToChars
  rw [foldl_natToCharsAux (n + 1) n 0 (Nat.lt_succ_self n)]
  simp

theorem takeDigitsVal_natToChars (n : Nat) : takeDigitsVal (natToChars n) = some n := by
  unfold takeDigitsVal
  rw [List.takeWhile_eq_self_iff.mpr (natToChars_digits n)]
  rw [if_neg (by simpa [List.isEmpty_iff] using natToChars_ne_nil n)]
  rw [foldl_natToChars]

theorem dropWhile_natToChars (n : Nat) :
    (natToChars n).dropWhile isJsSpace = natToChars n := by
  cases hl : natToChars n with
  | nil => rfl
  | cons c cs =>
    have hc : isDigitCh c = true := by
      apply natToChars_digits n
      rw [hl]
      exact List.mem_cons_self c cs
    rw [List.dropWhile_cons_of_neg (by simp [not_jsSpace_of_digit c hc])]

theorem parseJsIntChars_natToChars (n : Nat) :
    parseJsIntChars (natToChars n) = some ((n : Int)) := by
  unfold parseJsIntChars
  rw [dropWhile_natToChars]
  split
  · rename_i heq
    exact absurd heq (natToChars_ne_nil n)
  · rename_i c rest heq
    have hc : isDigitCh c = true := by
      apply natToChars_digits n
      rw [heq]
      exact List.mem_cons_self c rest
    rw [if_neg (ne_minus_of_digit c hc), if_neg (ne_plus_of_digit c hc)]
    rw [← heq, takeDigitsVal_natToChars]
    rfl

theorem parseJsInt_intToStr (n : Int) : parseJsInt (intToStr n) = some n := by
  unfold parseJsInt intToStr
  split
  · rename_i hneg
    show parseJsIntChars ('-' :: natToChars n.natAbs) = some n
    unfold parseJsIntChars
    rw [List.dropWhile_cons_of_neg (by decide)]
    show (if ('-' : Char) = '-' then (takeDigitsVal (natToChars n.natAbs)).map (fun v => -(v : Int))
      else if ('-' : Char) = '+' then (takeDigitsVal (natToChars n.natAbs)).map (fun v => (v : Int))
      else (takeDigitsVal ('-' :: natToChars n.natAbs)).map (fun v => (v : Int))) = some n
    rw [if_pos rfl, takeDigitsVal_natToChars]
    show some (-(n.natAbs : Int)) = some n
    congr 1
    omega
  · rename_i hpos
    show parseJsIntChars (natToChars n.natAbs) = some n
    rw [parseJsIntChars_natToChars]
    congr 1
    omega

/-! ### Lemmas: the branches of `prune` -/

theorem prune_absent_eq (dateParse : String → Option Int) (fs0 : Fs) (settings : Option JsVal)
    (dryRun : Bool) (nowMs : Int) (h : fs0 PathId.historyFile = Doc.absent) :
    prune dateParse fs0 settings dryRun nowMs = (0, []) := by
  unfold prune
  rw [h]

theorem prune_invalid_eq (dateParse : String → Option Int) (fs0 : Fs) (settings : Option JsVal)
    (dryRun : Bool) (nowMs : Int) (h : fs0 PathId.historyFile = Doc.invalid) :
    prune dateParse fs0 settings dryRun nowMs = (0, []) := by
  unfold prune
  rw [h]
  simp [readHistoryJson]

theorem prune_nonArray_eq (dateParse : String → Option Int) (fs0 : Fs) (settings : Option JsVal)
    (dryRun : Bool) (nowMs : Int) (tag : Nat) (h : fs0 PathId.historyFile = Doc.nonArray tag) :
    prune dateParse fs0 settings dryRun nowMs = (1, []) := by
  unfold prune
  rw [h]
  rfl

theorem prune_arr_eq (dateParse : String → Option Int) (fs0 : Fs) (settings : Option JsVal)
    (dryRun : Bool) (nowMs : Int) (history : List Item)
    (hhist : fs0 PathId.historyFile = Doc.arr history) :
    prune dateParse fs0 settings dryRun nowMs =
      (if history.length
            - (history.filter (keepItem dateParse (pruneCutoff settings nowMs))).length = 0
       then (0, [])
       else if dryRun then (0, [])
       else (0, [FsOp.mkdir PathId.historyDir,
                 FsOp.write PathId.tempFile
                   (Doc.arr (history.filter (keepItem dateParse (pruneCutoff settings nowMs)))),
                 FsOp.rename PathId.tempFile PathId.historyFile])) := by
  unfold prune
  rw [hhist]
  simp [readHistoryJson, pruneCutoff]

theorem filter_eq_of_removed_zero {p : Item → Bool} {l : List Item}
    (h : l.length - (l.filter p).length = 0) : l.filter p = l := by
  have hle := List.length_filter_le p l
  exact List.filter_eq_self.mpr (List.filter_length_eq_length.mp (by omega))

theorem keepItem_eq_false_iff (dateParse : String → Option Int) (cutoffMs : Int) (item : Item) :
    keepItem dateParse cutoffMs item = false ↔
      ∃ ms, toTimestamp dateParse item.createdAt = some ms ∧ ms < cutoffMs := by
  unfold keepItem
  cases h : toTimestamp dateParse item.createdAt with
  | none => simp
  | some ms =>
    by_cases hlt : ms < cutoffMs
    · simp [hlt]
    · simp [hlt]

theorem applyOps_pruneTrace (fs0 : Fs) (kept : List Item) :
    (applyOps fs0 [FsOp.mkdir PathId.historyDir, FsOp.write PathId.tempFile (Doc.arr kept),
      FsOp.rename PathId.tempFile PathId.historyFile]) PathId.historyFile = Doc.arr kept := by
  simp [applyOps, applyOp, fsUpdate]

theorem prune_final_doc (dateParse : String → Option Int) (fs0 : Fs) (settings : Option JsVal)
    (nowMs : Int) (history : List Item)
    (hhist : fs0 PathId.historyFile = Doc.arr history) :
    (applyOps fs0 (prune dateParse fs0 settings false nowMs).2) PathId.historyFile
      = Doc.arr (history.filter (keepItem dateParse (pruneCutoff settings nowMs))) := by
  rw [prune_arr_eq dateParse fs0 settings false nowMs history hhist]
  by_cases hc : history.length
      - (history.filter (keepItem dateParse (pruneCutoff settings nowMs))).length = 0
  · rw [if_pos hc]
    show fs0 PathId.historyFile = _
    rw [hhist, filter_eq_of_removed_zero hc]
  · rw [if_neg hc, if_neg (by simp)]
    exact applyOps_pruneTrace fs0 _

theorem prune_trace_shape (dateParse : String → Option Int) (fs0 : Fs) (settings : Option JsVal)
    (dryRun : Bool) (nowMs : Int) :
    (prune dateParse fs0 settings dryRun nowMs).2 = [] ∨
    ∃ kept, (prune dateParse fs0 settings dryRun nowMs).2 =
      [FsOp.mkdir PathId.historyDir, FsOp.write PathId.tempFile (Doc.arr kept),
       FsOp.rename PathId.tempFile PathId.historyFile] := by
  cases h : fs0 PathId.historyFile with
  | absent => rw [prune_absent_eq dateParse fs0 settings dryRun nowMs h]; left; rfl
  | invalid => rw [prune_invalid_eq dateParse fs0 settings dryRun nowMs h]; left; rfl
  | nonArray tag => rw [prune_nonArray_eq dateParse fs0 settings dryRun nowMs tag h]; left; rfl
  | arr history =>
    rw [prune_arr_eq dateParse fs0 settings dryRun nowMs history h]
    by_cases hc : history.length
        - (history.filter (keepItem dateParse (pruneCutoff settings nowMs))).length = 0
    · rw [if_pos hc]; left; rfl
    · rw [if_neg hc]
      cases hd : dryRun
      · right; exact ⟨_, rfl⟩
      · left; rfl

/-! ### Claim C2 -/

/-- C2: a mutating `prune` run leaves the history document holding exactly
the records that survive retention: a record is dropped iff its
`createdAt` parses and is strictly older than `now - retentionDays`, and a
record whose parsed `createdAt` equals the cutoff exactly is kept (removal
is exclusive of the boundary, since the code tests `createdAtMs < cutoffMs`). -/
theorem prune_removes_exactly_expired (dateParse : String → Option Int) (fs0 : Fs)
    (settings : Option JsVal) (nowMs : Int) (history : List Item)
    (hhist : fs0 PathId.historyFile = Doc.arr history) :
    ((applyOps fs0 (prune dateParse fs0 settings false nowMs).2) PathId.historyFile
        = Doc.arr (history.filter (keepItem dateParse (pruneCutoff settings nowMs))))
    ∧ (∀ item ∈ history,
        (item ∉ history.filter (keepItem dateParse (pruneCutoff settings nowMs)) ↔
          ∃ ms, toTimestamp dateParse item.createdAt = some ms ∧ ms < pruneCutoff settings nowMs))
    ∧ (∀ item ∈ history,
        toTimestamp dateParse item.createdAt = some (pruneCutoff settings nowMs) →
          item ∈ history.filter (keepItem dateParse (pruneCutoff settings nowMs))) := by
  refine ⟨prune_final_doc dateParse fs0 settings nowMs history hhist, ?_, ?_⟩
  · intro item hmem
    constructor
    · intro hnot
      apply (keepItem_eq_false_iff dateParse (pruneCutoff settings nowMs) item).mp
      cases hk : keepItem dateParse (pruneCutoff settings nowMs) item
      · rfl
      · exact absurd (List.mem_filter.mpr ⟨hmem, hk⟩) hnot
    · rintro ⟨ms, hms, hlt⟩ hin
      have hk := (List.mem_filter.mp hin).2
      rw [(keepItem_eq_false_iff dateParse (pruneCutoff settings nowMs) item).mpr
        ⟨ms, hms, hlt⟩] at hk
      exact Bool.noConfusion hk
  · intro item hmem heq
    refine List.mem_filter.mpr ⟨hmem, ?_⟩
    unfold keepItem
    rw [heq]
    simp

/-- Witness for C2 at the concrete fixture: the expired record is removed,
the unparseable one kept. -/
theorem prune_removes_exactly_expired_witness :
    (applyOps fsTest (prune dpTest fsTest none false nowTest).2) PathId.historyFile
      = Doc.arr [itemBad] := by
  have h := (prune_removes_exactly_expired dpTest fsTest none nowTest [itemOld, itemBad] rfl).1
  rw [h]
  decide

/-! ### Claim C3 -/

/-- C3: a mutating `prune` run never writes the history document in place:
its effect trace contains no direct write to the history path, and after
any crash point — any prefix of completed operations, optionally followed
by one torn (interrupted) operation — the history document holds either
the complete old state or the complete new state, never a mixture,
because all writing targets the temp path and the `rename` is atomic. -/
theorem prune_atomic_replace (dateParse : String → Option Int) (fs0 : Fs)
    (settings : Option JsVal) (dryRun : Bool) (nowMs : Int) :
    (∀ d, FsOp.write PathId.historyFile d ∉ (prune dateParse fs0 settings dryRun nowMs).2)
    ∧ (∀ k, (applyOps fs0 ((prune dateParse fs0 settings dryRun nowMs).2.take k))
            PathId.historyFile = fs0 PathId.historyFile
        ∨ (applyOps fs0 ((prune dateParse fs0 settings dryRun nowMs).2.take k))
            PathId.historyFile
          = (applyOps fs0 (prune dateParse fs0 settings dryRun nowMs).2) PathId.historyFile)
    ∧ (∀ k op, ((prune dateParse fs0 settings dryRun nowMs).2)[k]? = some op →
        (applyOpTorn (applyOps fs0 ((prune dateParse fs0 settings dryRun nowMs).2.take k)) op)
            PathId.historyFile = fs0 PathId.historyFile
        ∨ (applyOpTorn (applyOps fs0 ((prune dateParse fs0 settings dryRun nowMs).2.take k)) op)
            PathId.historyFile
          = (applyOps fs0 (prune dateParse fs0 settings dryRun nowMs).2) PathId.historyFile) := by
  rcases prune_trace_shape dateParse fs0 settings dryRun nowMs with hT | ⟨kept, hT⟩
  · rw [hT]
    refine ⟨by simp, fun k => Or.inl (by simp [applyOps]), fun k op h => ?_⟩
    simp at h
  · rw [hT]
    refine ⟨?_, ?_, ?_⟩
    · intro d
      simp
    · intro k
      match k with
      | 0 => exact Or.inl rfl
      | 1 => exact Or.inl (by simp [applyOps, applyOp])
      | 2 => exact Or.inl (by simp [applyOps, applyOp, fsUpdate])
      | (n + 3) =>
        right
        rw [List.take_of_length_le (by simp)]
    · intro k op h
      match k with
      | 0 =>
        simp only [List.getElem?_cons_zero, Option.some_inj] at h
        subst h
        exact Or.inl rfl
      | 1 =>
        simp only [List.getElem?_cons_succ, List.getElem?_cons_zero, Option.some_inj] at h
        subst h
        exact Or.inl (by simp [applyOps, applyOp, applyOpTorn, fsUpdate])
      | 2 =>
        simp only [List.getElem?_cons_succ, List.getElem?_cons_zero, Option.some_inj] at h
        subst h
        exact Or.inl (by simp [applyOps, applyOp, applyOpTorn, fsUpdate])
      | (n + 3) =>
        simp at h

/-- Witness for C3: crash right after the temp-file write on the concrete
fixture — the history document still holds the old state. -/
theorem prune_atomic_replace_witness :
    (applyOpTorn (applyOps fsTest ((prune dpTest fsTest none false nowTest).2.take 2))
        (FsOp.rename PathId.tempFile PathId.historyFile)) PathId.historyFile
      = fsTest PathId.historyFile
    ∨ (applyOpTorn (applyOps fsTest ((prune dpTest fsTest none false nowTest).2.take 2))
        (FsOp.rename PathId.tempFile PathId.historyFile)) PathId.historyFile
      = (applyOps fsTest (prune dpTest fsTest none false nowTest).2) PathId.historyFile :=
  (prune_atomic_replace dpTest fsTest none false nowTest).2.2 2
    (FsOp.rename PathId.tempFile PathId.historyFile) (by decide)

/-! ### Claim C4 -/

/-- C4: an item whose `createdAt` does not parse is kept (fail open) for
every retention setting and clock, and survives any `prune` run — dry or
mutating — in the resulting history document. -/
theorem prune_keeps_unparseable (dateParse : String → Option Int) (fs0 : Fs)
    (settings : Option JsVal) (dryRun : Bool) (nowMs : Int) (history : List Item) (item : Item)
    (hhist : fs0 PathId.historyFile = Doc.arr history)
    (hmem : item ∈ history)
    (hbad : toTimestamp dateParse item.createdAt = none) :
    (∀ cutoffMs, keepItem dateParse cutoffMs item = true)
    ∧ ∃ kept, (applyOps fs0 (prune dateParse fs0 settings dryRun nowMs).2) PathId.historyFile
        = Doc.arr kept ∧ item ∈ kept := by
  have hkeep : ∀ cutoffMs, keepItem dateParse cutoffMs item = true := by
    intro c
    unfold keepItem
    rw [hbad]
  refine ⟨hkeep, ?_⟩
  cases hd : dryRun
  · exact ⟨_, prune_final_doc dateParse fs0 settings nowMs history hhist,
      List.mem_filter.mpr ⟨hmem, hkeep _⟩⟩
  · have h2 : (prune dateParse fs0 settings true nowMs).2 = [] := by
      rw [prune_arr_eq dateParse fs0 settings true nowMs history hhist]
      split
      · rfl
      · rfl
    refine ⟨history, ?_, hmem⟩
    rw [h2]
    exact hhist

/-- Witness for C4: the fixture's unparseable record is kept. -/
theorem prune_keeps_unparseable_witness :
    (∀ cutoffMs, keepItem dpTest cutoffMs itemBad = true)
    ∧ ∃ kept, (applyOps fsTest (prune dpTest fsTest none false nowTest).2) PathId.historyFile
        = Doc.arr kept ∧ itemBad ∈ kept :=
  prune_keeps_unparseable dpTest fsTest none false nowTest [itemOld, itemBad] itemBad
    rfl (by decide) (by decide)

/-! ### Claim C5 -/

/-- C5: `prune` is idempotent — after a mutating run, a second mutating
run in which no record has newly expired removes nothing, exits 0, emits
no filesystem effect, and leaves every document exactly as the first run
left it. -/
theorem prune_idempotent (dateParse : String → Option Int) (fs0 : Fs) (settings : Option JsVal)
    (nowMs nowMs2 : Int) (history : List Item)
    (hhist : fs0 PathId.historyFile = Doc.arr history)
    (hnonew : ∀ item ∈ history.filter (keepItem dateParse (pruneCutoff settings nowMs)),
        keepItem dateParse (pruneCutoff settings nowMs2) item = true) :
    prune dateParse (applyOps fs0 (prune dateParse fs0 settings false nowMs).2)
        settings false nowMs2 = (0, [])
    ∧ ∀ p, applyOps (applyOps fs0 (prune dateParse fs0 settings false nowMs).2)
          (prune dateParse (applyOps fs0 (prune dateParse fs0 settings false nowMs).2)
            settings false nowMs2).2 p
        = (applyOps fs0 (prune dateParse fs0 settings false nowMs).2) p := by
  have hdoc := prune_final_doc dateParse fs0 settings nowMs history hhist
  have hself : (history.filter (keepItem dateParse (pruneCutoff settings nowMs))).filter
      (keepItem dateParse (pruneCutoff settings nowMs2))
      = history.filter (keepItem dateParse (pruneCutoff settings nowMs)) :=
    List.filter_eq_self.mpr hnonew
  have heq : prune dateParse (applyOps fs0 (prune dateParse fs0 settings false nowMs).2)
      settings false nowMs2 = (0, []) := by
    rw [prune_arr_eq dateParse _ settings false nowMs2 _ hdoc, hself]
    simp
  refine ⟨heq, fun p => ?_⟩
  rw [heq]
  rfl

/-- Witness for C5 on the concrete fixture: the second run is a no-op. -/
theorem prune_idempotent_witness :
    prune dpTest (applyOps fsTest (prune dpTest fsTest none false nowTest).2)
        none false nowTest = (0, []) :=
  (prune_idempotent dpTest fsTest none nowTest nowTest [itemOld, itemBad] rfl (by decide)).1

/-! ### Claim C10 -/

/-- C10 counterexample: a history document that exists but is not valid
JSON — hence in particular is not a JSON array — makes `readJson` take its
`[]` fallback, so `prune` exits 0 (not a failing exit code, contrary to
the claim's "non-array history document yields a failing exit code") and
leaves the document unchanged. -/
theorem prune_frame_effect_counterexample :
    fsInvalidDoc PathId.historyFile = Doc.invalid
    ∧ (prune dpTest fsInvalidDoc none false nowTest).1 = 0
    ∧ (applyOps fsInvalidDoc (prune dpTest fsInvalidDoc none false nowTest).2)
        PathId.historyFile = Doc.invalid := by
  decide

/-- C10 (amended): `prune` emits a filesystem write iff dry-run is off and
the history document parses to an array with at least one expired record;
whenever it emits nothing the on-disk state is exactly unchanged; a
document that parses to a non-array JSON value yields exit code 1 without
modification; an unparseable document is treated as the empty collection
and yields exit code 0 without modification, as does a missing one. -/
theorem prune_frame_effect (dateParse : String → Option Int) (fs0 : Fs) (settings : Option JsVal)
    (dryRun : Bool) (nowMs : Int) :
    ((prune dateParse fs0 settings dryRun nowMs).2 ≠ [] ↔
      dryRun = false ∧ ∃ history, fs0 PathId.historyFile = Doc.arr history ∧
        (history.filter (keepItem dateParse (pruneCutoff settings nowMs))).length
          < history.length)
    ∧ ((prune dateParse fs0 settings dryRun nowMs).2 = [] →
        ∀ p, applyOps fs0 (prune dateParse fs0 settings dryRun nowMs).2 p = fs0 p)
    ∧ (∀ tag, fs0 PathId.historyFile = Doc.nonArray tag →
        prune dateParse fs0 settings dryRun nowMs = (1, []))
    ∧ (fs0 PathId.historyFile = Doc.invalid →
        prune dateParse fs0 settings dryRun nowMs = (0, []))
    ∧ (fs0 PathId.historyFile = Doc.absent →
        prune dateParse fs0 settings dryRun nowMs = (0, [])) := by
  refine ⟨?_, ?_, fun tag h => prune_nonArray_eq dateParse fs0 settings dryRun nowMs tag h,
    fun h => prune_invalid_eq dateParse fs0 settings dryRun nowMs h,
    fun h => prune_absent_eq dateParse fs0 settings dryRun nowMs h⟩
  · constructor
    · intro hne
      cases h : fs0 PathId.historyFile with
      | absent =>
        rw [prune_absent_eq dateParse fs0 settings dryRun nowMs h] at hne
        exact absurd rfl hne
      | invalid =>
        rw [prune_invalid_eq dateParse fs0 settings dryRun nowMs h] at hne
        exact absurd rfl hne
      | nonArray tag =>
        rw [prune_nonArray_eq dateParse fs0 settings dryRun nowMs tag h] at hne
        exact absurd rfl hne
      | arr history =>
        rw [prune_arr_eq dateParse fs0 settings dryRun nowMs history h] at hne
        have hle := List.length_filter_le (keepItem dateParse (pruneCutoff settings nowMs))
          history
        by_cases hc : history.length
            - (history.filter (keepItem dateParse (pruneCutoff settings nowMs))).length = 0
        · rw [if_pos hc] at hne
          exact absurd rfl hne
        · cases hd : dryRun
          · exact ⟨rfl, history, rfl, by omega⟩
          · rw [if_neg hc, hd, if_pos rfl] at hne
            exact absurd rfl hne
    · rintro ⟨hd, history, hh, hlt⟩
      have hle := List.length_filter_le (keepItem dateParse (pruneCutoff settings nowMs))
        history
      rw [prune_arr_eq dateParse fs0 settings dryRun nowMs history hh, hd,
        if_neg (by omega)]
      simp
  · intro h2 p
    rw [h2]
    rfl

/-- Witness for C10's amended theorem: a document parsing to a non-array
JSON value exits 1 and emits no filesystem effect. -/
theorem prune_frame_effect_witness :
    prune dpTest fsNonArrayDoc none false nowTest = (1, []) :=
  (prune_frame_effect dpTest fsNonArrayDoc none false nowTest).2.2.1 0 rfl

/-! ### Claim C7 -/

/-- C7: the resolved retention is the configured integer exactly when it
lies in `[1, 3650]`; a missing, null, or non-numeric value, or an integer
outside that range, falls back to the default of 60 days. -/
theorem resolveRetentionDays_bounds (v : Option JsVal) :
    (∀ n : Int, v = some (.jnum n) →
      resolveRetentionDays v
        = if 1 ≤ n ∧ n ≤ MAX_RETENTION_DAYS then n else DEFAULT_RETENTION_DAYS)
    ∧ (v = none → resolveRetentionDays v = DEFAULT_RETENTION_DAYS)
    ∧ (v = some .jnull → resolveRetentionDays v = DEFAULT_RETENTION_DAYS)
    ∧ (∀ s, v = some (.jstr s) → parseJsInt s = none →
        resolveRetentionDays v = DEFAULT_RETENTION_DAYS)
    ∧ (∀ s k, v = some (.jstr s) → parseJsInt s = some k →
        resolveRetentionDays v
          = if 1 ≤ k ∧ k ≤ MAX_RETENTION_DAYS then k else DEFAULT_RETENTION_DAYS) := by
  refine ⟨?_, ?_, ?_, ?_, ?_⟩
  · rintro n rfl
    unfold resolveRetentionDays settingsString
    rw [parseJsInt_intToStr]
    show (if n < 1 ∨ n > MAX_RETENTION_DAYS then DEFAULT_RETENTION_DAYS else n) = _
    simp only [MAX_RETENTION_DAYS, DEFAULT_RETENTION_DAYS]
    by_cases hin : 1 ≤ n ∧ n ≤ (3650 : Int)
    · rw [if_neg (by omega), if_pos hin]
    · rw [if_pos (by omega), if_neg hin]
  · rintro rfl
    decide
  · rintro rfl
    decide
  · rintro s rfl hp
    unfold resolveRetentionDays settingsString
    rw [hp]
  · rintro s k rfl hp
    unfold resolveRetentionDays settingsString
    rw [hp]
    show (if k < 1 ∨ k > MAX_RETENTION_DAYS then DEFAULT_RETENTION_DAYS else k) = _
    simp only [MAX_RETENTION_DAYS, DEFAULT_RETENTION_DAYS]
    by_cases hin : 1 ≤ k ∧ k ≤ (3650 : Int)
    · rw [if_neg (by omega), if_pos hin]
    · rw [if_pos (by omega), if_neg hin]

/-- Witness for C7: a configured value of 90 resolves to 90. -/
theorem resolveRetentionDays_bounds_witness :
    resolveRetentionDays (some (.jnum 90))
      = if 1 ≤ (90 : Int) ∧ (90 : Int) ≤ MAX_RETENTION_DAYS then 90
        else DEFAULT_RETENTION_DAYS :=
  (resolveRetentionDays_bounds (some (.jnum 90))).1 90 rfl

/-! ### Claim C6 -/

/-- C6: `checkHealth` is a total function of the fetch outcome — every
failure path (network error, non-OK response, unparseable body) is caught
and normalised, so polling never raises — and on a body produced by a
spec-conformant engine it reports `loading` while `LoadStatus.ready` is
false, `ready` once true, `error` on a reported load failure, and
`offline` when the backend cannot be reached. -/
theorem checkHealth_normalizes :
    (checkHealth FetchOutcome.netError = offlineResult)
    ∧ (∀ b, checkHealth (FetchOutcome.response false b) = offlineResult)
    ∧ (checkHealth (FetchOutcome.response true BodyOutcome.invalidJson) = offlineResult)
    ∧ (checkHealth (FetchOutcome.response true (BodyOutcome.json (healthBody EngineLoad.loading)))
        = { ready := false, status := BackendState.loading, message := "" })
    ∧ (checkHealth (FetchOutcome.response true (BodyOutcome.json (healthBody EngineLoad.ready)))
        = { ready := true, status := BackendState.ready, message := "" })
    ∧ (∀ msg, checkHealth (FetchOutcome.response true (BodyOutcome.json
          (healthBody (EngineLoad.failed msg))))
        = { ready := false, status := BackendState.error, message := msg }) := by
  refine ⟨rfl, fun b => rfl, rfl, by decide, by decide, fun msg => ?_⟩
  simp [checkHealth, healthBody]

/-! ### Claim C8 -/

/-- C8: whether `start()` POSTs `/start` is gated by the freshly polled
derived health status: the POST is issued exactly when the spec-conformant
engine is `ready` (equivalently, when `checkHealth` derives `ready`);
when the derived status is `loading`, `offline`, or `error`, `start()`
settles on an error with a message and never touches `/start`. -/
theorem start_gated_by_health :
    (∀ e p, (start (FetchOutcome.response true (BodyOutcome.json (healthBody e))) p).posted = true
        ↔ e = EngineLoad.ready)
    ∧ (∀ e p,
        (checkHealth (FetchOutcome.response true (BodyOutcome.json (healthBody e)))).status
            ≠ BackendState.ready →
          (start (FetchOutcome.response true (BodyOutcome.json (healthBody e))) p).posted = false
          ∧ (start (FetchOutcome.response true (BodyOutcome.json (healthBody e))) p).status
              = ClientStatus.error
          ∧ (start (FetchOutcome.response true (BodyOutcome.json (healthBody e))) p).errorMsg
              ≠ none)
    ∧ (∀ p, (start FetchOutcome.netError p).posted = false
        ∧ (start FetchOutcome.netError p).status = ClientStatus.error
        ∧ (start FetchOutcome.netError p).errorMsg ≠ none)
    ∧ (∀ b p, (start (FetchOutcome.response false b) p).posted = false
        ∧ (start (FetchOutcome.response false b) p).status = ClientStatus.error
        ∧ (start (FetchOutcome.response false b) p).errorMsg ≠ none) := by
  refine ⟨?_, ?_, ?_, ?_⟩
  · intro e p
    cases e <;> rcases p with _ | ⟨(_ | _), body⟩ <;> simp [start, checkHealth, healthBody]
  · intro e p hne
    cases e with
    | ready => exact absurd (by decide) hne
    | loading => exact ⟨rfl, rfl, by simp [start, checkHealth, healthBody]⟩
    | failed msg => exact ⟨rfl, rfl, by simp [start, checkHealth, healthBody]⟩
  · intro p
    exact ⟨rfl, rfl, by simp [start, checkHealth, offlineResult]⟩
  · intro b p
    exact ⟨rfl, rfl, by simp [start, checkHealth, offlineResult]⟩

/-- Witness for C8: with the engine still loading, `start()` issues no
POST and reports an error. -/
theorem start_gated_by_health_witness :
    (start (FetchOutcome.response true (BodyOutcome.json (healthBody EngineLoad.loading)))
        (PostOutcome.resp true "")).posted = false
    ∧ (start (FetchOutcome.response true (BodyOutcome.json (healthBody EngineLoad.loading)))
        (PostOutcome.resp true "")).status = ClientStatus.error
    ∧ (start (FetchOutcome.response true (BodyOutcome.json (healthBody EngineLoad.loading)))
        (PostOutcome.resp true "")).errorMsg ≠ none :=
  start_gated_by_health.2.1 EngineLoad.loading (PostOutcome.resp true "") (by decide)

/-! ### Claim C9 -/

/-- C9: in the launcher, the prune step (run synchronously by `spawnSync`)
completes — with whatever exit status — strictly before the backend server
process is spawned, on every launch. -/
theorem prune_before_spawn (pruneExit : Int) :
    ∃ pre, devBackend pruneExit = pre ++ [LaunchEvent.spawnBackend]
      ∧ LaunchEvent.pruneCompleted pruneExit ∈ pre
      ∧ LaunchEvent.spawnBackend ∉ pre := by
  by_cases h : pruneExit = 0
  · refine ⟨[LaunchEvent.pruneCompleted pruneExit, LaunchEvent.logStart], ?_, by simp, by simp⟩
    simp [devBackend, h]
  · refine ⟨[LaunchEvent.pruneCompleted pruneExit, LaunchEvent.warnPruneFailed,
      LaunchEvent.logStart], ?_, by simp, by simp⟩
    simp [devBackend, h]

/-! ### Claim C1 -/

theorem sc_invariant (s : SCConfig) (h : SCReach s) :
    s.capturing
      = if s.state = SessionState.Recording ∨ s.state = SessionState.Transcribing
        then 1 else 0 := by
  induction h with
  | init => simp
  | step s e t hr hstep ih =>
    cases hstep with
    | startOk c s hg =>
      rcases hg with h1 | h1 <;> rw [h1] at ih <;> simp at ih <;> simp [ih]
    | startRejected c s hg => exact ih
    | startNotReady c s => exact ih
    | stopOk c s hg =>
      rw [hg] at ih
      simp at ih
      simp [ih]
    | stopRejected c s hg => exact ih
    | stopBusy c s hg => exact ih
    | finishOk c s hg =>
      rw [hg] at ih
      simp at ih
      simp [ih]
    | finishFailed c s hg =>
      rw [hg] at ih
      simp at ih
      simp [ih]

/-- C1: in every configuration reachable by any interleaving of concurrent
callers' atomic `start()`/`stop()`/completion events, at most one session
is in `Recording` or `Transcribing` (no double-capture). -/
theorem session_mutual_exclusion (s : SCConfig) (h : SCReach s) : s.capturing ≤ 1 := by
  rw [sc_invariant s h]
  split <;> omega

/-- Witness for C1: the configuration reached by one successful `start()`
from the initial state satisfies the bound. -/
theorem session_mutual_exclusion_witness :
    (⟨SessionState.Recording, 1⟩ : SCConfig).capturing ≤ 1 :=
  session_mutual_exclusion ⟨SessionState.Recording, 1⟩
    (SCReach.step ⟨SessionState.Idle, 0⟩ (SCEvent.startOk 0) ⟨SessionState.Recording, 1⟩
      SCReach.init (SCStep.startOk 0 ⟨SessionState.Idle, 0⟩ (Or.inl rfl)))

end Papagei
